import Mathlib

/-!
# Scan UI controller (`static/script.js`)

A shallow embedding of the browser-side controller: the page elements the
script closes over are a record, each event handler is a function on that
record, and what a handler does to the outside world (alerts, requests,
console output, calls of the render operation) is collected in a trace.

A handler is run to completion against the answer of the network; events
that arrive while a request is in flight are not interleaved with it.

Host facilities the script relies on but does not define are parameters:
the number type of parsed JSON with its conversion to text and its zero
test, and the Unicode upper-case table used by `String.prototype.toUpperCase`.
Strings are sequences of Unicode scalar values.
-/

namespace SafelinkScan

/-! ## Values produced by `resp.json()` -/

/-- A parsed JSON value; `ν` is the host's number type. An object is the list
of its own properties, looked up by first match. -/
inductive JSON (ν : Type) where
  | null : JSON ν
  | bool : Bool → JSON ν
  | num : ν → JSON ν
  | str : String → JSON ν
  | arr : List (JSON ν) → JSON ν
  | obj : List (String × JSON ν) → JSON ν

/-- Host facilities used by the script. -/
structure Host (ν : Type) where
  /-- Number to text, as done by string conversion of a Number. -/
  numToString : ν → String
  /-- Whether a number is falsy (zero of either sign). -/
  numIsZero : ν → Bool
  /-- Upper-case mapping of one code point (one code point may map to several). -/
  upperOf : Char → List Char

/-- An exception raised while a handler runs. -/
inductive JSError where
  | typeError : JSError
  | fetchRejected : JSError
  | syntaxError : JSError
  deriving DecidableEq

/-- Own-property lookup in an object literal's property list. -/
def lookup {ν : Type} : List (String × JSON ν) → String → Option (JSON ν)
  | [], _ => none
  | (k, v) :: rest, key => if k = key then some v else lookup rest key

/-- Property read `data.key` for one of the names the script reads (`status`,
`message`, `score`, `issues`, `error`): `null` has no properties and reading
one throws; an object yields its own property or `undefined` (`none`); every
other value yields `undefined`, no prototype defining these names. -/
def getProp {ν : Type} (data : JSON ν) (key : String) : Except JSError (Option (JSON ν)) :=
  match data with
  | .null => .error .typeError
  | .obj fields => .ok (lookup fields key)
  | _ => .ok none

/-- Truthiness of a value or `undefined`. -/
def truthy {ν : Type} (host : Host ν) : Option (JSON ν) → Bool
  | none => false
  | some .null => false
  | some (.bool b) => b
  | some (.num n) => !host.numIsZero n
  | some (.str s) => s != ""
  | some (.arr _) => true
  | some (.obj _) => true

/-- Whether the object's own properties include the key. -/
def hasOwn {ν : Type} (fields : List (String × JSON ν)) (key : String) : Bool :=
  (lookup fields key).isSome

/-- Whether the value is `null`. -/
def isNull {ν : Type} : JSON ν → Bool
  | .null => true
  | _ => false

mutual
/-- String conversion of a value, as done by string concatenation, by the
`textContent` setter and by `alert`. An array joins its elements with commas;
an object converts through `Object.prototype.toString` unless an own
`toString` property (never callable in parsed JSON) shadows it, in which case
the conversion throws. -/
def toStr {ν : Type} (host : Host ν) : JSON ν → Except JSError String
  | .null => .ok "null"
  | .bool b => .ok (if b then "true" else "false")
  | .num n => .ok (host.numToString n)
  | .str s => .ok s
  | .arr xs => joinStr host xs
  | .obj fields => if hasOwn fields "toString" then .error .typeError else .ok "[object Object]"
/-- The body of `Array.prototype.join` with the default separator: `null` elements
contribute the empty string. -/
def joinStr {ν : Type} (host : Host ν) : List (JSON ν) → Except JSError String
  | [] => .ok ""
  | [x] => if isNull x then .ok "" else toStr host x
  | x :: y :: rest =>
    match (if isNull x then .ok "" else toStr host x) with
    | .error e => .error e
    | .ok s =>
      match joinStr host (y :: rest) with
      | .error e => .error e
      | .ok t => .ok (s ++ "," ++ t)
end

/-- The operand `v || d`: the left value when truthy, the default otherwise. -/
def orDefault {ν : Type} (host : Host ν) (v : Option (JSON ν)) (d : JSON ν) : JSON ν :=
  match v with
  | some x => if truthy host (some x) then x else d
  | none => d

/-- The operand `v ?? d`: the default only for `undefined` and `null`. -/
def nullish {ν : Type} (v : Option (JSON ν)) (d : JSON ν) : JSON ν :=
  match v with
  | none => d
  | some .null => d
  | some x => x

/-- `String.prototype.toUpperCase` over the host's case table. -/
def toUpperCase {ν : Type} (host : Host ν) (s : String) : String :=
  ⟨s.data.flatMap host.upperOf⟩

/-- The method call `v.toUpperCase()`: only a string has the method; on any
other value the property is missing or not callable and the call throws. -/
def callToUpperCase {ν : Type} (host : Host ν) : JSON ν → Except JSError String
  | .str s => .ok (toUpperCase host s)
  | _ => .error .typeError

/-! ## Text helpers: `trim` and `JSON.stringify` -/

/-- White space and line terminators stripped by `String.prototype.trim`. -/
def isJSWhiteSpace (c : Char) : Bool :=
  let n := c.toNat
  n = 0x09 || n = 0x0A || n = 0x0B || n = 0x0C || n = 0x0D || n = 0x20 || n = 0xA0 ||
  n = 0x1680 || (0x2000 ≤ n && n ≤ 0x200A) || n = 0x2028 || n = 0x2029 || n = 0x202F ||
  n = 0x205F || n = 0x3000 || n = 0xFEFF

/-- `String.prototype.trim`: strip white space from both ends. -/
def trim (s : String) : String :=
  ⟨((s.data.dropWhile isJSWhiteSpace).reverse.dropWhile isJSWhiteSpace).reverse⟩

/-- A lower-case hexadecimal digit. -/
def hexDigit (n : Nat) : Char :=
  if n < 10 then Char.ofNat (48 + n) else Char.ofNat (87 + n)

/-- The escape of one code point inside a JSON string literal, as `JSON.stringify`
writes it. -/
def quoteChar (c : Char) : List Char :=
  if c = '"' then ['\\', '"']
  else if c = '\\' then ['\\', '\\']
  else if c.toNat = 0x08 then ['\\', 'b']
  else if c.toNat = 0x09 then ['\\', 't']
  else if c.toNat = 0x0A then ['\\', 'n']
  else if c.toNat = 0x0C then ['\\', 'f']
  else if c.toNat = 0x0D then ['\\', 'r']
  else if c.toNat < 0x20 then ['\\', 'u', '0', '0', hexDigit (c.toNat / 16), hexDigit (c.toNat % 16)]
  else [c]

/-- The string literal `JSON.stringify` writes for a string. -/
def quoteJSONString (s : String) : String :=
  ⟨'"' :: (s.data.flatMap quoteChar ++ ['"'])⟩

/-- The body `JSON.stringify({ url })`. -/
def stringifyUrlObject (url : String) : String :=
  "\x7b\"url\":" ++ quoteJSONString url ++ "\x7d"

/-! ## A reader for the request body

The reference reading of the body text, used to state what the body sent to
the scan endpoint denotes. -/

/-- The value of a hexadecimal digit. -/
def hexValue (c : Char) : Option Nat :=
  if 48 ≤ c.toNat ∧ c.toNat ≤ 57 then some (c.toNat - 48)
  else if 97 ≤ c.toNat ∧ c.toNat ≤ 102 then some (c.toNat - 87)
  else if 65 ≤ c.toNat ∧ c.toNat ≤ 70 then some (c.toNat - 55)
  else none

/-- Push a decoded code point in front of what the rest of the literal decodes to. -/
def consDecoded (c : Char) : Option (List Char × List Char) → Option (List Char × List Char)
  | some (cs, rest) => some (c :: cs, rest)
  | none => none

/-- Read a JSON string literal after its opening quote: the decoded text and the
input left after the closing quote. Raw control characters, unknown escapes and
escapes of surrogate halves are rejected. -/
def readStringBody : List Char → Option (List Char × List Char)
  | [] => none
  | c :: rest =>
    if c = '"' then some ([], rest)
    else if c = '\\' then
      match rest with
      | [] => none
      | e :: rest2 =>
        if e = '"' then consDecoded '"' (readStringBody rest2)
        else if e = '\\' then consDecoded '\\' (readStringBody rest2)
        else if e = '/' then consDecoded '/' (readStringBody rest2)
        else if e = 'b' then consDecoded (Char.ofNat 0x08) (readStringBody rest2)
        else if e = 't' then consDecoded (Char.ofNat 0x09) (readStringBody rest2)
        else if e = 'n' then consDecoded (Char.ofNat 0x0A) (readStringBody rest2)
        else if e = 'f' then consDecoded (Char.ofNat 0x0C) (readStringBody rest2)
        else if e = 'r' then consDecoded (Char.ofNat 0x0D) (readStringBody rest2)
        else if e = 'u' then
          match rest2 with
          | a :: b :: c :: d :: rest3 =>
            match hexValue a, hexValue b, hexValue c, hexValue d with
            | some x, some y, some z, some w =>
              let n := ((x * 16 + y) * 16 + z) * 16 + w
              if 0xD800 ≤ n ∧ n ≤ 0xDFFF then none
              else consDecoded (Char.ofNat n) (readStringBody rest3)
            | _, _, _, _ => none
          | _ => none
        else none
    else if c.toNat < 0x20 then none
    else consDecoded c (readStringBody rest)

/-- Read a body of the form `{"url":<string literal>}`: the text of its only
field `url`, or nothing when the body is not of that form. -/
def readUrlObject (body : String) : Option String :=
  match body.data with
  | '{' :: '"' :: 'u' :: 'r' :: 'l' :: '"' :: ':' :: '"' :: rest =>
    match readStringBody rest with
    | some (cs, ['}']) => some ⟨cs⟩
    | _ => none
  | _ => none

/-! ## The page -/

/-- A child element of the issue list. -/
structure Elem where
  tag : String
  className : String
  textContent : String
  deriving DecidableEq

/-- The elements the script looks up at start-up, with the attributes it reads
or writes. -/
structure Page where
  /-- The value of `urlInput`. -/
  urlValue : String
  /-- The flag `scanBtn.disabled`. -/
  scanDisabled : Bool
  /-- The text of `scanBtn`. -/
  scanLabel : String
  /-- The class list of `result`. -/
  resultClasses : List String
  /-- The text of `statusText`. -/
  statusText : String
  /-- The class list of `statusText`. -/
  statusClasses : List String
  /-- The text of `messageText`. -/
  messageText : String
  /-- The text of `scoreVal`. -/
  scoreVal : String
  /-- The children of `issuesList`. -/
  issuesList : List Elem
  deriving DecidableEq

/-- `classList.remove(...tokens)`. -/
def classRemove (classes : List String) (tokens : List String) : List String :=
  classes.filter (fun c => !tokens.contains c)

/-- `classList.add(token)`: appended unless already present. -/
def classAdd (classes : List String) (token : String) : List String :=
  if classes.contains token then classes else classes ++ [token]

/-- The three status style classes. -/
def statusClassNames : List String :=
  ["status-safe", "status-suspicious", "status-danger"]

/-- The prefix of an issue line: the string literal of the source as it decodes
from UTF-8 (U+00E2, U+20AC, U+00A2, space). -/
def bulletPrefix : String := "â€¢ "

/-- The bullet glyph U+2022 followed by a space: the prefix an issue line is
meant to carry. -/
def bulletGlyph : String := "\u2022 "

/-- The single child produced by parsing the placeholder markup
`<div class='issue'>No specific issues detected.</div>`. -/
def placeholderIssue : Elem :=
  ⟨"div", "issue", "No specific issues detected."⟩

/-- A page together with the exception, if any, that ended the run. -/
structure Completion where
  page : Page
  thrown : Option JSError
  deriving DecidableEq

/-- The `forEach` over the issues: each entry appends one `div.issue` whose text
is the prefix joined with the entry; a failing string conversion ends the loop
with the children appended so far. -/
def appendIssues {ν : Type} (host : Host ν) : List Elem → List (JSON ν) → List Elem × Option JSError
  | acc, [] => (acc, none)
  | acc, i :: rest =>
    match toStr host i with
    | .error e => (acc, some e)
    | .ok t => appendIssues host (acc ++ [⟨"div", "issue", bulletPrefix ++ t⟩]) rest

/-- The last statements of `showResult`: reset the status classes and add the one
matching the status. -/
def applyStatusClass {ν : Type} (classes : List String) (status : Option (JSON ν)) : List String :=
  let cleared := classRemove classes statusClassNames
  match status with
  | some (.str s) =>
    if s = "safe" then classAdd cleared "status-safe"
    else if s = "suspicious" then classAdd cleared "status-suspicious"
    else if s = "danger" then classAdd cleared "status-danger"
    else cleared
  | _ => cleared

/-- The render operation `showResult(data)`, statement by statement. -/
def showResult {ν : Type} (host : Host ν) (p : Page) (data : JSON ν) : Completion :=
  let p := { p with resultClasses := classRemove p.resultClasses ["hidden"] }
  match getProp data "status" with
  | .error e => ⟨p, some e⟩
  | .ok status =>
  match callToUpperCase host (orDefault host status (.str "")) with
  | .error e => ⟨p, some e⟩
  | .ok label =>
  let p := { p with statusText := label }
  match getProp data "message" with
  | .error e => ⟨p, some e⟩
  | .ok message =>
  match toStr host (orDefault host message (.str "")) with
  | .error e => ⟨p, some e⟩
  | .ok msg =>
  let p := { p with messageText := msg }
  match getProp data "score" with
  | .error e => ⟨p, some e⟩
  | .ok score =>
  match toStr host (nullish score (.str "N/A")) with
  | .error e => ⟨p, some e⟩
  | .ok sc =>
  let p := { p with scoreVal := sc }
  let p := { p with issuesList := [] }
  match getProp data "issues" with
  | .error e => ⟨p, some e⟩
  | .ok issues =>
  let filled : List Elem × Option JSError :=
    match issues with
    | some (.arr (i :: rest)) => appendIssues host p.issuesList (i :: rest)
    | _ => ([placeholderIssue], none)
  let p := { p with issuesList := filled.1 }
  match filled.2 with
  | some e => ⟨p, some e⟩
  | none =>
  ⟨{ p with statusClasses := applyStatusClass p.statusClasses status }, none⟩

/-! ## The handlers -/

/-- A request handed to `fetch`. -/
structure Request where
  url : String
  method : String
  headers : List (String × String)
  body : String
  deriving DecidableEq

/-- What the network gives back: the `fetch` promise rejects, or a response
arrives with its `ok` flag and a body that `resp.json()` parses (`some`) or
rejects (`none`). -/
inductive FetchOutcome (ν : Type) where
  | rejected : FetchOutcome ν
  | response : Bool → Option (JSON ν) → FetchOutcome ν

/-- What a handler did to the outside world, in order. -/
structure Trace (ν : Type) where
  alerts : List String
  requests : List Request
  /-- Arguments of the calls of `showResult`. -/
  rendered : List (JSON ν)
  /-- Values passed to `console.error`. -/
  consoleErrors : List JSError

/-- The request built by the scan handler for a trimmed input. -/
def scanRequest (url : String) : Request :=
  { url := "/api/scan", method := "POST",
    headers := [("Content-Type", "application/json")],
    body := stringifyUrlObject url }

/-- The body of the `try` block, after the request was issued: the page, the
alerts raised, the values rendered, and the exception leaving the block. -/
def scanTry {ν : Type} (host : Host ν) (p : Page) :
    FetchOutcome ν → Page × List String × List (JSON ν) × Option JSError
  | .rejected => (p, [], [], some .fetchRejected)
  | .response _ none => (p, [], [], some .syntaxError)
  | .response false (some data) =>
    match getProp data "error" with
    | .error e => (p, [], [], some e)
    | .ok err =>
      match toStr host (orDefault host err (.str "Error scanning URL")) with
      | .error e => (p, [], [], some e)
      | .ok text => (p, [text], [], none)
  | .response true (some data) =>
    let c := showResult host p data
    (c.page, [], [data], c.thrown)

/-- The click handler of `scanBtn`, run to completion against a network that
answers the request with `net`. -/
def scanClick {ν : Type} (host : Host ν) (net : Request → FetchOutcome ν) (p : Page) :
    Page × Trace ν :=
  let url := trim p.urlValue
  if url = "" then
    (p, { alerts := ["Please paste a URL first."], requests := [], rendered := [],
          consoleErrors := [] })
  else
    let p := { p with scanDisabled := true, scanLabel := "Scanning..." }
    let req := scanRequest url
    let r := scanTry host p (net req)
    let caught : List String × List JSError :=
      match r.2.2.2 with
      | some e => (["Network error or server not running."], [e])
      | none => ([], [])
    ({ r.1 with scanDisabled := false, scanLabel := "Scan Link" },
     { alerts := r.2.1 ++ caught.1, requests := [req], rendered := r.2.2.1,
       consoleErrors := caught.2 })

/-- The click handler of `clearBtn`. -/
def clearClick (ν : Type) (p : Page) : Page × Trace ν :=
  ({ p with urlValue := "", resultClasses := classAdd p.resultClasses "hidden" },
   { alerts := [], requests := [], rendered := [], consoleErrors := [] })

/-- The timer callback scheduled by the paste handler. -/
def pasteTimeout (p : Page) : Page :=
  { p with urlValue := trim p.urlValue }

/-- Decimal text of an integer. -/
def showInt : Int → String
  | .ofNat m => ⟨Nat.toDigits 10 m⟩
  | .negSucc m => ⟨'-' :: Nat.toDigits 10 (m + 1)⟩

/-- A host for integer-valued numbers with an ASCII case table, used to run
the definitions on concrete inputs. -/
def intHost : Host Int :=
  { numToString := showInt, numIsZero := fun n => n == 0,
    upperOf := fun c => [c.toUpper] }

/-- A page as it may look before the first scan. -/
def page0 : Page :=
  { urlValue := "", scanDisabled := false, scanLabel := "Scan Link",
    resultClasses := ["card", "hidden"], statusText := "", statusClasses := ["status"],
    messageText := "", scoreVal := "", issuesList := [] }

/-- A page whose trigger control carries another label, with a URL typed in. -/
def pageCheck : Page :=
  { page0 with urlValue := " https://example.org/a?b=\"c\" ", scanLabel := "Check" }

/-- A network that answers every request with a success response carrying a
safe verdict. -/
def netSafe : Request → FetchOutcome Int :=
  fun _ => .response true (some (.obj [("status", .str "safe"), ("score", .num 87), ("issues", .arr [])]))

/-- A network that answers every request with a failure response whose `error`
field is the empty string. -/
def netEmptyError : Request → FetchOutcome Int :=
  fun _ => .response false (some (.obj [("error", .str "")]))

/-- A network that answers every request with a failure response carrying the
error text `rate limited`. -/
def netRateLimited : Request → FetchOutcome Int :=
  fun _ => .response false (some (.obj [("error", .str "rate limited")]))

/-- A network on which every request is rejected. -/
def netDown : Request → FetchOutcome Int :=
  fun _ => .rejected

/-! ## The shape of a scan result -/

/-- A field that is missing, `null`, or a string. -/
def isStringOrAbsent {ν : Type} : Option (JSON ν) → Bool
  | none => true
  | some .null => true
  | some (.str _) => true
  | _ => false

/-- A field that is missing, `null`, or a number. -/
def isNumberOrAbsent {ν : Type} : Option (JSON ν) → Bool
  | none => true
  | some .null => true
  | some (.num _) => true
  | _ => false

/-- Whether the value is a string. -/
def isStr {ν : Type} : JSON ν → Bool
  | .str _ => true
  | _ => false

/-- An `issues` field that is missing, not a sequence, or a sequence of strings. -/
def isStringsOrNoList {ν : Type} : Option (JSON ν) → Bool
  | some (.arr xs) => xs.all isStr
  | _ => true

/-- A ScanResult-shaped value: an object whose `status` and `message` are each a
string or absent, whose `score` is a number or absent, and whose `issues`, when
a sequence, holds strings. -/
def isScanResult {ν : Type} : JSON ν → Bool
  | .obj fields =>
    isStringOrAbsent (lookup fields "status") && isStringOrAbsent (lookup fields "message") &&
    isNumberOrAbsent (lookup fields "score") && isStringsOrNoList (lookup fields "issues")
  | _ => false

/-- The text of a string field, empty when the field is not a string. -/
def textOf {ν : Type} : Option (JSON ν) → String
  | some (.str s) => s
  | _ => ""

/-- The score label: the number's text, `N/A` when the field is not a number. -/
def scoreText {ν : Type} (host : Host ν) : Option (JSON ν) → String
  | some (.num n) => host.numToString n
  | _ => "N/A"

/-- The line item of one issue. -/
def issueLine {ν : Type} (x : JSON ν) : Elem :=
  ⟨"div", "issue", bulletPrefix ++ textOf (some x)⟩

/-- The issue lines: one per entry of a non-empty sequence, else the placeholder. -/
def issueLines {ν : Type} : Option (JSON ν) → List Elem
  | some (.arr (i :: rest)) => (i :: rest).map issueLine
  | _ => [placeholderIssue]

/-- The page a render of a ScanResult-shaped object is expected to leave. -/
def renderedPage {ν : Type} (host : Host ν) (p : Page) (fields : List (String × JSON ν)) : Page :=
  { urlValue := p.urlValue, scanDisabled := p.scanDisabled, scanLabel := p.scanLabel,
    resultClasses := classRemove p.resultClasses ["hidden"],
    statusText := toUpperCase host (textOf (lookup fields "status")),
    statusClasses := applyStatusClass p.statusClasses (lookup fields "status"),
    messageText := textOf (lookup fields "message"),
    scoreVal := scoreText host (lookup fields "score"),
    issuesList := issueLines (lookup fields "issues") }

/-- The success body `{status:"safe", score:87, issues:[]}`. -/
def safeResult : List (String × JSON Int) :=
  [("status", .str "safe"), ("score", .num 87), ("issues", .arr [])]

/-- The success body `{status:"danger", issues:["phishing pattern","suspicious redirect"]}`. -/
def dangerResult : List (String × JSON Int) :=
  [("status", .str "danger"),
   ("issues", .arr [.str "phishing pattern", .str "suspicious redirect"])]

/-- A page left by an earlier render of a suspicious verdict. -/
def pageShown : Page :=
  { urlValue := "http://old.example", scanDisabled := false, scanLabel := "Scan Link",
    resultClasses := ["card"], statusText := "SUSPICIOUS",
    statusClasses := ["status", "status-suspicious"], messageText := "Be careful.",
    scoreVal := "40", issuesList := [⟨"div", "issue", "old line"⟩] }

/-- A success body whose `status` is a number, outside the ScanResult shape. -/
def numericStatus : JSON Int :=
  .obj [("status", .num 5), ("issues", .arr [.str "x"])]

/-! ## The handlers: validation, request, cleanup -/

theorem dropWhile_eq_nil_of_all {α : Type} (f : α → Bool) (l : List α)
    (h : ∀ x ∈ l, f x = true) : l.dropWhile f = [] := by
  induction l with
  | nil => rfl
  | cons a t ih =>
    have ha : f a = true := h a (List.mem_cons_self a t)
    have ht : ∀ x ∈ t, f x = true := fun x hx => h x (List.mem_cons_of_mem a hx)
    simp [List.dropWhile, ha, ih ht]

/-- Text made of white space only trims to the empty string. -/
theorem trim_eq_empty_of_blank (s : String)
    (h : ∀ c ∈ s.data, isJSWhiteSpace c = true) : trim s = "" := by
  have h1 : s.data.dropWhile isJSWhiteSpace = [] := dropWhile_eq_nil_of_all _ _ h
  simp only [trim, h1]
  rfl

/-- The trimmed text is empty only when the text is made of white space. -/
theorem blank_of_trim_eq_empty (s : String) (h : trim s = "") :
    ∀ c ∈ s.data, isJSWhiteSpace c = true := by
  have h1 : ((s.data.dropWhile isJSWhiteSpace).reverse.dropWhile isJSWhiteSpace).reverse = [] :=
    congrArg String.data h
  have h2 : ∀ x ∈ s.data.dropWhile isJSWhiteSpace, isJSWhiteSpace x = true := by
    intro x hx
    exact List.dropWhile_eq_nil_iff.mp (List.reverse_eq_nil_iff.mp h1) x (List.mem_reverse.mpr hx)
  have h3 : s.data.dropWhile isJSWhiteSpace = [] := by
    by_contra hne
    have hh := List.head_dropWhile_not isJSWhiteSpace s.data hne
    rw [h2 _ (List.head_mem hne)] at hh
    exact absurd hh (by decide)
  exact List.dropWhile_eq_nil_iff.mp h3

/-- C2: for an input value that is empty or made of white space only, the scan
click handler issues no request, raises exactly one alert (the validation
text), renders nothing and leaves the whole page, in particular the trigger
control's disabled flag and label and the result panel, as it was. -/
theorem scan_blank_input_only_alerts {ν : Type} (host : Host ν)
    (net : Request → FetchOutcome ν) (p : Page)
    (h : ∀ c ∈ p.urlValue.data, isJSWhiteSpace c = true) :
    (scanClick host net p).2.requests = [] ∧
    (scanClick host net p).2.alerts = ["Please paste a URL first."] ∧
    (scanClick host net p).2.rendered = [] ∧
    (scanClick host net p).1 = p := by
  have ht : trim p.urlValue = "" := trim_eq_empty_of_blank _ h
  simp [scanClick, ht]

theorem scan_blank_input_only_alerts_witness :
    (∀ c ∈ ({ page0 with urlValue := " \t\n" } : Page).urlValue.data, isJSWhiteSpace c = true) ∧
    (scanClick intHost (fun _ => FetchOutcome.rejected) { page0 with urlValue := " \t\n" }).2.alerts
      = ["Please paste a URL first."] :=
  ⟨by decide,
   (scan_blank_input_only_alerts intHost (fun _ => FetchOutcome.rejected)
      { page0 with urlValue := " \t\n" } (by decide)).2.1⟩

/-! ## The request body reads back as the trimmed input -/

theorem readStringBody_quoteChar_ctl (n : Nat) (hn : n < 32) (rest : List Char) :
    readStringBody (quoteChar (Char.ofNat n) ++ rest)
      = consDecoded (Char.ofNat n) (readStringBody rest) := by
  interval_cases n <;> simp only [quoteChar, hexDigit] <;> simp <;>
    rw [readStringBody.eq_def] <;> simp [hexValue]

theorem readStringBody_quoteChar (c : Char) (rest : List Char) :
    readStringBody (quoteChar c ++ rest) = consDecoded c (readStringBody rest) := by
  by_cases hc : c.toNat < 32
  · have h := readStringBody_quoteChar_ctl c.toNat hc rest
    rwa [Char.ofNat_toNat] at h
  · by_cases hq : c = '"'
    · subst hq
      simp only [quoteChar]
      simp
      rw [readStringBody.eq_def]
      simp
    · by_cases hb : c = '\\'
      · subst hb
        simp only [quoteChar]
        simp
        rw [readStringBody.eq_def]
        simp
      · have h8 : c.toNat ≠ 8 := by omega
        have h9 : c.toNat ≠ 9 := by omega
        have h10 : c.toNat ≠ 10 := by omega
        have h12 : c.toNat ≠ 12 := by omega
        have h13 : c.toNat ≠ 13 := by omega
        simp only [quoteChar, hq, hb, h8, h9, h10, h12, h13, hc, if_false, List.singleton_append]
        rw [readStringBody.eq_def]
        simp [hq, hb, hc]

theorem readStringBody_quoted (cs tail : List Char) :
    readStringBody (cs.flatMap quoteChar ++ '"' :: tail) = some (cs, tail) := by
  induction cs with
  | nil =>
    rw [readStringBody.eq_def]
    simp
  | cons c t ih =>
    rw [List.flatMap_cons, List.append_assoc, readStringBody_quoteChar, ih]
    rfl

/-- The body written for a text reads back as exactly that text. -/
theorem readUrlObject_stringify (u : String) :
    readUrlObject (stringifyUrlObject u) = some u := by
  have hd : (stringifyUrlObject u).data
      = '{' :: '"' :: 'u' :: 'r' :: 'l' :: '"' :: ':' :: '"' ::
          (u.data.flatMap quoteChar ++ '"' :: ['}']) := by
    simp [stringifyUrlObject, quoteJSONString, String.data_append]
  simp only [readUrlObject, hd, readStringBody_quoted]

/-- C1: for an input value whose trimmed text is not empty, one run of the scan
click handler issues exactly one request, whatever the network answers: method
POST, address `/api/scan`, the single header `Content-Type: application/json`,
and a body that is `JSON.stringify` of the object with the only field `url`,
which reads back as exactly the trimmed input text. -/
theorem scan_issues_one_request {ν : Type} (host : Host ν)
    (net : Request → FetchOutcome ν) (p : Page) (h : trim p.urlValue ≠ "") :
    ∃ req : Request, (scanClick host net p).2.requests = [req] ∧
      req.method = "POST" ∧ req.url = "/api/scan" ∧
      req.headers = [("Content-Type", "application/json")] ∧
      req.body = stringifyUrlObject (trim p.urlValue) ∧
      readUrlObject req.body = some (trim p.urlValue) := by
  refine ⟨scanRequest (trim p.urlValue), ?_, rfl, rfl, rfl, rfl, ?_⟩
  · simp [scanClick, h]
  · exact readUrlObject_stringify _

theorem scan_issues_one_request_witness :
    trim pageCheck.urlValue ≠ "" ∧
    ∃ req : Request, (scanClick intHost netDown pageCheck).2.requests = [req] ∧
      req.method = "POST" ∧ req.url = "/api/scan" ∧
      req.headers = [("Content-Type", "application/json")] ∧
      req.body = stringifyUrlObject (trim pageCheck.urlValue) ∧
      readUrlObject req.body = some (trim pageCheck.urlValue) :=
  ⟨by decide, scan_issues_one_request intHost netDown pageCheck (by decide)⟩

/-- C3 as stated fails: started with the label `Check`, a scan that renders a
safe verdict finishes with the trigger control enabled but labelled
`Scan Link`, not with the label it had before. -/
theorem scan_label_not_restored :
    trim pageCheck.urlValue ≠ "" ∧
    (scanClick intHost netSafe pageCheck).1.scanDisabled = false ∧
    (scanClick intHost netSafe pageCheck).1.scanLabel = "Scan Link" ∧
    (scanClick intHost netSafe pageCheck).1.scanLabel ≠ pageCheck.scanLabel := by
  decide

/-- C3, amended: for every starting state and every outcome of a submitted scan
(any answer of the network, any parsed body, a render that throws or not), when
the scan click handler finishes the trigger control is enabled and its label is
the fixed text `Scan Link`; that is the label it had before exactly when the
label before was `Scan Link`. -/
theorem scan_finishes_enabled_scan_link {ν : Type} (host : Host ν)
    (net : Request → FetchOutcome ν) (p : Page) (h : trim p.urlValue ≠ "") :
    (scanClick host net p).1.scanDisabled = false ∧
    (scanClick host net p).1.scanLabel = "Scan Link" ∧
    ((scanClick host net p).1.scanLabel = p.scanLabel ↔ p.scanLabel = "Scan Link") := by
  have hl : (scanClick host net p).1.scanLabel = "Scan Link" := by simp [scanClick, h]
  refine ⟨by simp [scanClick, h], hl, ?_⟩
  rw [hl]
  exact eq_comm

theorem scan_finishes_enabled_scan_link_witness :
    trim pageCheck.urlValue ≠ "" ∧
    (scanClick intHost netDown pageCheck).1.scanDisabled = false ∧
    (scanClick intHost netDown pageCheck).1.scanLabel = "Scan Link" ∧
    ((scanClick intHost netDown pageCheck).1.scanLabel = pageCheck.scanLabel
      ↔ pageCheck.scanLabel = "Scan Link") :=
  ⟨by decide, scan_finishes_enabled_scan_link intHost netDown pageCheck (by decide)⟩

/-- C4 as stated fails: a failure response whose `error` field holds the empty
string raises the fallback alert, not an alert with the empty text. -/
theorem scan_empty_error_falls_back :
    trim pageCheck.urlValue ≠ "" ∧
    netEmptyError (scanRequest (trim pageCheck.urlValue))
      = .response false (some (.obj [("error", .str "")])) ∧
    lookup [("error", (JSON.str "" : JSON Int))] "error" = some (.str "") ∧
    (scanClick intHost netEmptyError pageCheck).2.alerts = ["Error scanning URL"] ∧
    (scanClick intHost netEmptyError pageCheck).2.alerts ≠ [""] := by
  refine ⟨by decide, rfl, rfl, ?_, ?_⟩ <;> decide

/-- C4, amended: for a failure response whose parsed body is an object, the scan
handler raises exactly one alert: with the text e when the `error` field holds
a non-empty string e, and with the fallback text `Error scanning URL` when the
body has no `error` field or the field holds the empty string; in each case
nothing is rendered and the page, the result panel included, differs from the
page before only in the trigger control being enabled and labelled `Scan Link`. -/
theorem scan_failure_alert {ν : Type} (host : Host ν)
    (net : Request → FetchOutcome ν) (p : Page) (fields : List (String × JSON ν))
    (h : trim p.urlValue ≠ "")
    (hnet : net (scanRequest (trim p.urlValue)) = .response false (some (.obj fields))) :
    (∀ e, lookup fields "error" = some (.str e) → e ≠ "" →
      (scanClick host net p).2.alerts = [e]) ∧
    (lookup fields "error" = none ∨ lookup fields "error" = some (.str "") →
      (scanClick host net p).2.alerts = ["Error scanning URL"]) ∧
    (scanClick host net p).2.rendered = [] ∧
    (scanClick host net p).1 = { p with scanDisabled := false, scanLabel := "Scan Link" } := by
  refine ⟨?_, ?_, ?_, ?_⟩
  · intro e he hne
    simp [scanClick, h, hnet, scanTry, getProp, he, orDefault, truthy, hne, toStr]
  · rintro (he | he) <;>
      simp [scanClick, h, hnet, scanTry, getProp, he, orDefault, truthy, toStr]
  · simp only [scanClick, h, hnet, scanTry, getProp, if_false]
    cases toStr host (orDefault host (lookup fields "error") (.str "Error scanning URL")) <;> rfl
  · simp only [scanClick, h, hnet, scanTry, getProp, if_false]
    cases toStr host (orDefault host (lookup fields "error") (.str "Error scanning URL")) <;> rfl

theorem scan_failure_alert_witness :
    trim pageCheck.urlValue ≠ "" ∧
    (scanClick intHost netRateLimited pageCheck).2.alerts = ["rate limited"] :=
  ⟨by decide,
   (scan_failure_alert intHost netRateLimited pageCheck [("error", .str "rate limited")]
      (by decide) rfl).1 "rate limited" rfl (by decide)⟩

/-- C9: for a submitted scan that meets a transport failure (the request is
rejected, or a response of either status arrives whose body does not parse as
JSON), the scan handler raises exactly one alert, with the text
`Network error or server not running.`, renders nothing, and the request it
issued is the only one. -/
theorem scan_transport_failure {ν : Type} (host : Host ν)
    (net : Request → FetchOutcome ν) (p : Page) (h : trim p.urlValue ≠ "")
    (hnet : net (scanRequest (trim p.urlValue)) = .rejected ∨
      ∃ ok, net (scanRequest (trim p.urlValue)) = .response ok none) :
    (scanClick host net p).2.alerts = ["Network error or server not running."] ∧
    (scanClick host net p).2.rendered = [] ∧
    (scanClick host net p).2.requests = [scanRequest (trim p.urlValue)] := by
  rcases hnet with hr | ⟨ok, hr⟩
  · simp [scanClick, h, hr, scanTry]
  · simp [scanClick, h, hr, scanTry]

theorem scan_transport_failure_witness :
    trim pageCheck.urlValue ≠ "" ∧
    (scanClick intHost netDown pageCheck).2.alerts = ["Network error or server not running."] ∧
    (scanClick intHost netDown pageCheck).2.rendered = [] ∧
    (scanClick intHost netDown pageCheck).2.requests = [scanRequest (trim pageCheck.urlValue)] :=
  ⟨by decide, scan_transport_failure intHost netDown pageCheck (by decide) (Or.inl rfl)⟩

/-! ## The clear operation -/

theorem classAdd_mem (classes : List String) (token : String) :
    token ∈ classAdd classes token := by
  unfold classAdd
  split
  · rename_i hc
    simpa using hc
  · simp

theorem mem_classAdd (classes : List String) (token c : String) :
    c ∈ classAdd classes token ↔ c ∈ classes ∨ c = token := by
  unfold classAdd
  split
  · rename_i hc
    have hc2 : token ∈ classes := by simpa using hc
    constructor
    · exact Or.inl
    · rintro (h | rfl)
      · exact h
      · exact hc2
  · simp

theorem classAdd_idem (classes : List String) (token : String) :
    classAdd (classAdd classes token) token = classAdd classes token := by
  have hm : (classAdd classes token).contains token = true := by
    simpa using classAdd_mem classes token
  rw [classAdd.eq_def (classAdd classes token) token, if_pos hm]

/-- C10: from every page state (any input text, the result panel hidden or
shown, the trigger control disabled or not), the clear operation leaves the
input field empty and the result panel hidden, issues no request and raises
no alert, leaves the trigger control, the rendered labels, the status classes,
the issue list and the other classes of the result panel as they were, and
clearing twice gives the same page as clearing once. -/
theorem clear_empties_and_hides (ν : Type) (p : Page) :
    (clearClick ν p).1.urlValue = "" ∧
    "hidden" ∈ (clearClick ν p).1.resultClasses ∧
    (clearClick ν p).2.requests = [] ∧
    (clearClick ν p).2.alerts = [] ∧
    (clearClick ν p).1.scanDisabled = p.scanDisabled ∧
    (clearClick ν p).1.scanLabel = p.scanLabel ∧
    (clearClick ν p).1.statusText = p.statusText ∧
    (clearClick ν p).1.statusClasses = p.statusClasses ∧
    (clearClick ν p).1.messageText = p.messageText ∧
    (clearClick ν p).1.scoreVal = p.scoreVal ∧
    (clearClick ν p).1.issuesList = p.issuesList ∧
    (∀ c, c ≠ "hidden" → (c ∈ (clearClick ν p).1.resultClasses ↔ c ∈ p.resultClasses)) ∧
    (clearClick ν (clearClick ν p).1).1 = (clearClick ν p).1 := by
  refine ⟨rfl, classAdd_mem _ _, rfl, rfl, rfl, rfl, rfl, rfl, rfl, rfl, rfl, ?_, ?_⟩
  · intro c hc
    simp [clearClick, mem_classAdd, hc]
  · simp [clearClick, classAdd_idem]

/-! ## The render operation -/

theorem upper_of_stringOrAbsent {ν : Type} (host : Host ν) (v : Option (JSON ν))
    (h : isStringOrAbsent v = true) :
    callToUpperCase host (orDefault host v (.str "")) = .ok (toUpperCase host (textOf v)) := by
  rcases v with _ | (_ | _ | _ | s | _ | _) <;> simp [isStringOrAbsent] at h <;>
    try simp [orDefault, truthy, callToUpperCase, textOf]
  by_cases hs : s = "" <;> simp [orDefault, truthy, callToUpperCase, textOf, hs]

theorem text_of_stringOrAbsent {ν : Type} (host : Host ν) (v : Option (JSON ν))
    (h : isStringOrAbsent v = true) :
    toStr host (orDefault host v (.str "")) = .ok (textOf v) := by
  rcases v with _ | (_ | _ | _ | s | _ | _) <;> simp [isStringOrAbsent] at h <;>
    try simp [orDefault, truthy, toStr, textOf]
  by_cases hs : s = "" <;> simp [orDefault, truthy, toStr, textOf, hs]

theorem score_of_numberOrAbsent {ν : Type} (host : Host ν) (v : Option (JSON ν))
    (h : isNumberOrAbsent v = true) :
    toStr host (nullish v (.str "N/A")) = .ok (scoreText host v) := by
  rcases v with _ | (_ | _ | _ | _ | _ | _) <;> simp [isNumberOrAbsent] at h <;>
    simp [nullish, toStr, scoreText]

theorem appendIssues_strings {ν : Type} (host : Host ν) (xs : List (JSON ν))
    (h : xs.all isStr = true) (acc : List Elem) :
    appendIssues host acc xs = (acc ++ xs.map issueLine, none) := by
  induction xs generalizing acc with
  | nil => simp [appendIssues]
  | cons x t ih =>
    simp only [List.all_cons, Bool.and_eq_true] at h
    obtain ⟨hx, ht⟩ := h
    cases x <;> simp only [isStr, Bool.false_eq_true] at hx
    simp [appendIssues, toStr, ih ht, issueLine, textOf]

theorem issues_of_stringsOrNoList {ν : Type} (host : Host ν) (v : Option (JSON ν))
    (h : isStringsOrNoList v = true) :
    (match v with
      | some (.arr (i :: rest)) => appendIssues host [] (i :: rest)
      | _ => ([placeholderIssue], none)) = (issueLines v, none) := by
  rcases v with _ | (_ | _ | _ | _ | xs | _) <;> try rfl
  cases xs with
  | nil => rfl
  | cons i rest =>
    simp only [isStringsOrNoList] at h
    simp [appendIssues_strings host (i :: rest) h [], issueLines]

/-- A render of a ScanResult-shaped object runs to its end and leaves the
expected page. -/
theorem showResult_scanResult {ν : Type} (host : Host ν) (p : Page)
    (fields : List (String × JSON ν)) (h : isScanResult (.obj fields) = true) :
    showResult host p (.obj fields) = ⟨renderedPage host p fields, none⟩ := by
  simp only [isScanResult, Bool.and_eq_true] at h
  obtain ⟨⟨⟨hs, hm⟩, hsc⟩, hi⟩ := h
  simp only [showResult, getProp, upper_of_stringOrAbsent host _ hs,
    text_of_stringOrAbsent host _ hm, score_of_numberOrAbsent host _ hsc,
    issues_of_stringsOrNoList host _ hi, renderedPage]

theorem classRemove_idem (classes tokens : List String) :
    classRemove (classRemove classes tokens) tokens = classRemove classes tokens := by
  simp [classRemove, List.filter_filter]

theorem classRemove_classAdd (classes : List String) (token : String)
    (h : token ∈ statusClassNames) :
    classRemove (classAdd classes token) statusClassNames
      = classRemove classes statusClassNames := by
  unfold classAdd
  split
  · rfl
  · have ht : statusClassNames.contains token = true := by simpa using h
    simp [classRemove, List.filter_append, h]

theorem classRemove_applyStatusClass {ν : Type} (classes : List String)
    (status : Option (JSON ν)) :
    classRemove (applyStatusClass classes status) statusClassNames
      = classRemove classes statusClassNames := by
  unfold applyStatusClass
  split
  · split_ifs
    · rw [classRemove_classAdd _ _ (by decide), classRemove_idem]
    · rw [classRemove_classAdd _ _ (by decide), classRemove_idem]
    · rw [classRemove_classAdd _ _ (by decide), classRemove_idem]
    · exact classRemove_idem _ _
  · exact classRemove_idem _ _

theorem showResult_frame {ν : Type} (host : Host ν) (p : Page) (data : JSON ν) :
    (showResult host p data).page.urlValue = p.urlValue ∧
    (showResult host p data).page.scanDisabled = p.scanDisabled ∧
    (showResult host p data).page.scanLabel = p.scanLabel ∧
    (showResult host p data).page.resultClasses = classRemove p.resultClasses ["hidden"] ∧
    classRemove (showResult host p data).page.statusClasses statusClassNames
      = classRemove p.statusClasses statusClassNames := by
  unfold showResult
  repeat' split
  all_goals first
    | (simp [classRemove_applyStatusClass]; done)
    | (dsimp only
       generalize appendIssues host [] _ = r
       rcases r with ⟨l, _ | e⟩ <;> simp [classRemove_applyStatusClass])

theorem applyStatusClass_congr {ν : Type} (c1 c2 : List String) (status : Option (JSON ν))
    (h : classRemove c1 statusClassNames = classRemove c2 statusClassNames) :
    applyStatusClass c1 status = applyStatusClass c2 status := by
  unfold applyStatusClass
  simp only [h]

theorem digitChar_ne_slash (k : Nat) (hk : k < 10) : Nat.digitChar k ≠ '/' := by
  interval_cases k <;> decide

theorem toDigitsCore_no_slash (fuel n : Nat) (acc : List Char)
    (hacc : ∀ c ∈ acc, c ≠ '/') : ∀ c ∈ Nat.toDigitsCore 10 fuel n acc, c ≠ '/' := by
  induction fuel generalizing n acc with
  | zero => simpa [Nat.toDigitsCore] using hacc
  | succ f ih =>
    have hcons : ∀ c ∈ Nat.digitChar (n % 10) :: acc, c ≠ '/' := by
      intro c hc
      rcases List.mem_cons.mp hc with rfl | hc
      · exact digitChar_ne_slash _ (Nat.mod_lt _ (by decide))
      · exact hacc c hc
    unfold Nat.toDigitsCore
    dsimp only
    split
    · exact hcons
    · exact ih _ _ hcons

/-- The decimal text of an integer is never the text `N/A`. -/
theorem showInt_ne_na (n : Int) : showInt n ≠ "N/A" := by
  have hd : ∀ m, ∀ c ∈ Nat.toDigits 10 m, c ≠ '/' := fun m =>
    toDigitsCore_no_slash _ _ [] (by simp)
  intro h
  have hmem : '/' ∈ (showInt n).data := by
    rw [h]
    decide
  cases n with
  | ofNat m => exact hd m _ hmem rfl
  | negSucc m =>
    rcases List.mem_cons.mp hmem with hc | hc
    · exact absurd hc (by decide)
    · exact hd _ _ hc rfl

/-- C5: for every ScanResult-shaped object passed to `showResult` the render
runs to its end; the score label is the literal `N/A` exactly when `score` is
null or absent, and for a numeric score, zero included, it is the host's text
of that number (a text that is never `N/A`). -/
theorem showResult_score_label {ν : Type} (host : Host ν) (p : Page)
    (fields : List (String × JSON ν)) (h : isScanResult (.obj fields) = true)
    (hnum : ∀ n, host.numToString n ≠ "N/A") :
    (showResult host p (.obj fields)).thrown = none ∧
    ((showResult host p (.obj fields)).page.scoreVal = "N/A" ↔
      lookup fields "score" = none ∨ lookup fields "score" = some .null) ∧
    (∀ n, lookup fields "score" = some (.num n) →
      (showResult host p (.obj fields)).page.scoreVal = host.numToString n) := by
  rw [showResult_scanResult host p fields h]
  simp only [isScanResult, Bool.and_eq_true] at h
  obtain ⟨⟨⟨_, _⟩, hsc⟩, _⟩ := h
  refine ⟨rfl, ?_, ?_⟩
  · simp only [renderedPage]
    rcases hv : lookup fields "score" with _ | (_ | _ | n | _ | _ | _) <;>
      simp [hv, isNumberOrAbsent] at hsc <;> simp [scoreText, hnum]
  · intro n hn
    simp [renderedPage, hn, scoreText]

theorem showResult_score_label_witness :
    isScanResult (.obj safeResult) = true ∧
    (∀ n, intHost.numToString n ≠ "N/A") ∧
    (showResult intHost page0 (.obj safeResult)).page.scoreVal = "87" ∧
    ((showResult intHost page0 (.obj dangerResult)).page.scoreVal = "N/A" ↔
      lookup dangerResult "score" = none ∨ lookup dangerResult "score" = some .null) :=
  ⟨by decide, showInt_ne_na,
   (showResult_score_label intHost page0 safeResult (by decide) showInt_ne_na).2.2 87 rfl,
   (showResult_score_label intHost page0 dangerResult (by decide) showInt_ne_na).2.1⟩

/-- The shape of the issue list, whatever the prefix literal is: for every
ScanResult-shaped object the render runs to its end; a non-empty sequence of n
strings leaves exactly n `div.issue` items, the k-th with the text of the
source's prefix literal followed by the k-th issue, in the given order; an
`issues` that is absent, not a sequence, or empty leaves the single
placeholder line `No specific issues detected.`. -/
theorem showResult_issue_lines {ν : Type} (host : Host ν) (p : Page)
    (fields : List (String × JSON ν)) (h : isScanResult (.obj fields) = true) :
    (showResult host p (.obj fields)).thrown = none ∧
    (∀ ss : List String, ss ≠ [] → lookup fields "issues" = some (.arr (ss.map .str)) →
      (showResult host p (.obj fields)).page.issuesList
        = ss.map (fun s => ⟨"div", "issue", bulletPrefix ++ s⟩) ∧
      (showResult host p (.obj fields)).page.issuesList.length = ss.length ∧
      ∀ k (hk : k < ss.length), (showResult host p (.obj fields)).page.issuesList[k]?
        = some ⟨"div", "issue", bulletPrefix ++ ss[k]⟩) ∧
    ((∀ i rest, lookup fields "issues" ≠ some (.arr (i :: rest))) →
      (showResult host p (.obj fields)).page.issuesList = [placeholderIssue]) := by
  rw [showResult_scanResult host p fields h]
  refine ⟨rfl, ?_, ?_⟩
  · intro ss hne hv
    have hl : (renderedPage host p fields).issuesList
        = ss.map (fun s => ⟨"div", "issue", bulletPrefix ++ s⟩) := by
      cases ss with
      | nil => exact absurd rfl hne
      | cons s t =>
        simp only [renderedPage, hv, List.map_cons, issueLines, issueLine, textOf, List.map_map]
        rfl
    refine ⟨hl, ?_, ?_⟩
    · rw [hl, List.length_map]
    · intro k hk
      rw [hl, List.getElem?_map, List.getElem?_eq_getElem hk]
      rfl
  · intro hv
    simp only [renderedPage]
    rcases hl : lookup fields "issues" with _ | (_ | _ | _ | _ | xs | _) <;> try rfl
    cases xs with
    | nil => rfl
    | cons i rest => exact absurd hl (hv i rest)

theorem showResult_issue_lines_witness :
    isScanResult (.obj dangerResult) = true ∧
    (showResult intHost pageShown (.obj dangerResult)).page.issuesList
      = [⟨"div", "issue", bulletPrefix ++ "phishing pattern"⟩,
         ⟨"div", "issue", bulletPrefix ++ "suspicious redirect"⟩] ∧
    (showResult intHost pageShown (.obj safeResult)).page.issuesList = [placeholderIssue] :=
  ⟨by decide,
   ((showResult_issue_lines intHost pageShown dangerResult (by decide)).2.1
      ["phishing pattern", "suspicious redirect"] (by decide) rfl).1,
   (showResult_issue_lines intHost pageShown safeResult (by decide)).2.2
      (fun i rest hv => by simp [safeResult, lookup] at hv)⟩

theorem not_mem_cleared (classes : List String) (c : String) (hc : c ∈ statusClassNames) :
    c ∉ classRemove classes statusClassNames := by
  simp [classRemove, hc]

theorem filter_cleared (classes : List String) :
    (classRemove classes statusClassNames).filter (fun c => statusClassNames.contains c) = [] := by
  simp [classRemove, List.filter_filter]

theorem filter_classAdd_cleared (classes : List String) (token : String) :
    ((classAdd (classRemove classes statusClassNames) token).filter
      (fun c => statusClassNames.contains c)).length ≤ 1 := by
  unfold classAdd
  split
  · rw [filter_cleared]
    exact Nat.zero_le 1
  · rw [List.filter_append, filter_cleared, List.nil_append]
    exact le_trans (List.length_filter_le _ _) (by simp)

theorem filter_applyStatusClass {ν : Type} (classes : List String) (status : Option (JSON ν)) :
    ((applyStatusClass classes status).filter
      (fun c => statusClassNames.contains c)).length ≤ 1 := by
  unfold applyStatusClass
  split
  · split_ifs
    · exact filter_classAdd_cleared _ _
    · exact filter_classAdd_cleared _ _
    · exact filter_classAdd_cleared _ _
    · rw [filter_cleared]
      exact Nat.zero_le 1
  · rw [filter_cleared]
    exact Nat.zero_le 1

/-- C7: for every prior class list of the status label and every
ScanResult-shaped object passed to `showResult`, after the render the status
label's text is the upper-cased status string, empty when `status` is absent
or null; each of `status-safe`, `status-suspicious`, `status-danger` is on the
label exactly when `status` is the matching one of `safe`, `suspicious`,
`danger`, so none of the three is there for any other or an absent status; and
the label never carries more than one of the three. -/
theorem showResult_status_label {ν : Type} (host : Host ν) (p : Page)
    (fields : List (String × JSON ν)) (h : isScanResult (.obj fields) = true) :
    (∀ s, lookup fields "status" = some (.str s) →
      (showResult host p (.obj fields)).page.statusText = toUpperCase host s) ∧
    (lookup fields "status" = none ∨ lookup fields "status" = some .null →
      (showResult host p (.obj fields)).page.statusText = "") ∧
    (∀ c ∈ statusClassNames, c ∈ (showResult host p (.obj fields)).page.statusClasses ↔
      (lookup fields "status" = some (.str "safe") ∧ c = "status-safe") ∨
      (lookup fields "status" = some (.str "suspicious") ∧ c = "status-suspicious") ∨
      (lookup fields "status" = some (.str "danger") ∧ c = "status-danger")) ∧
    (((showResult host p (.obj fields)).page.statusClasses).filter
      (fun c => statusClassNames.contains c)).length ≤ 1 := by
  rw [showResult_scanResult host p fields h]
  simp only [isScanResult, Bool.and_eq_true] at h
  obtain ⟨⟨⟨hs, _⟩, _⟩, _⟩ := h
  refine ⟨?_, ?_, ?_, filter_applyStatusClass _ _⟩
  · intro s hv
    simp [renderedPage, hv, textOf]
  · rintro (hv | hv) <;> simp [renderedPage, hv, textOf, toUpperCase]
  · intro c hc
    have hn := not_mem_cleared p.statusClasses c hc
    simp only [renderedPage]
    rcases hv : lookup fields "status" with _ | (_ | _ | _ | s | _ | _) <;>
      simp [hv, isStringOrAbsent] at hs
    · simpa [applyStatusClass] using hn
    · simpa [applyStatusClass] using hn
    · by_cases h1 : s = "safe"
      · subst h1
        simp [applyStatusClass, mem_classAdd, hn]
      · by_cases h2 : s = "suspicious"
        · subst h2
          simp [applyStatusClass, mem_classAdd, hn]
        · by_cases h3 : s = "danger"
          · subst h3
            simp [applyStatusClass, mem_classAdd, hn]
          · simp [applyStatusClass, h1, h2, h3, hn]

theorem showResult_status_label_witness :
    isScanResult (.obj dangerResult) = true ∧
    (showResult intHost pageShown (.obj dangerResult)).page.statusText = "DANGER" ∧
    ("status-danger" ∈ (showResult intHost pageShown (.obj dangerResult)).page.statusClasses ↔
      (lookup dangerResult "status" = some (.str "safe") ∧ "status-danger" = "status-safe") ∨
      (lookup dangerResult "status" = some (.str "suspicious")
        ∧ "status-danger" = "status-suspicious") ∨
      (lookup dangerResult "status" = some (.str "danger") ∧ "status-danger" = "status-danger")) :=
  ⟨by decide,
   (showResult_status_label intHost pageShown dangerResult (by decide)).1 "danger" rfl,
   (showResult_status_label intHost pageShown dangerResult (by decide)).2.2.1
      "status-danger" (by decide)⟩

/-- C8: for every prior page, every value a rendered first (ScanResult-shaped or
not, even one on which the render throws) and every ScanResult-shaped object
b, rendering a and then b ends in the same completion and the same page, the
issue list, the status, message and score labels and the status classes
included, as rendering b alone: no issue line of the earlier render remains.
In particular rendering b twice equals rendering it once. -/
theorem showResult_replaces {ν : Type} (host : Host ν) (p : Page) (a : JSON ν)
    (fields : List (String × JSON ν)) (h : isScanResult (.obj fields) = true) :
    showResult host (showResult host p a).page (.obj fields)
      = showResult host p (.obj fields) ∧
    showResult host (showResult host p (.obj fields)).page (.obj fields)
      = showResult host p (.obj fields) := by
  have key : ∀ d : JSON ν, showResult host (showResult host p d).page (.obj fields)
      = showResult host p (.obj fields) := by
    intro d
    obtain ⟨h1, h2, h3, h4, h5⟩ := showResult_frame host p d
    rw [showResult_scanResult host _ fields h, showResult_scanResult host p fields h]
    simp only [renderedPage, h1, h2, h3, h4, classRemove_idem,
      applyStatusClass_congr _ _ _ h5]
  exact ⟨key a, key _⟩

theorem showResult_replaces_witness :
    isScanResult (.obj safeResult) = true ∧
    showResult intHost (showResult intHost pageShown (.obj dangerResult)).page (.obj safeResult)
      = showResult intHost pageShown (.obj safeResult) ∧
    (showResult intHost (showResult intHost pageShown (.obj dangerResult)).page
      (.obj safeResult)).page.issuesList = [placeholderIssue] :=
  ⟨by decide,
   (showResult_replaces intHost pageShown (.obj dangerResult) safeResult (by decide)).1,
   by decide⟩

/-! ## Outside the ScanResult shape -/

/-- A status that is a non-zero number has no `toUpperCase`: the render throws
after revealing the panel and before any label, class or issue line is set. -/
theorem showResult_numeric_status_throws :
    showResult intHost pageShown numericStatus
      = ⟨{ pageShown with resultClasses := classRemove pageShown.resultClasses ["hidden"] },
         some .typeError⟩ := by
  decide

/-- A render that throws inside the scan handler ends in the network-error
alert, with the trigger control enabled and labelled again. -/
theorem scan_render_throw_alerts :
    (scanClick intHost (fun _ => .response true (some numericStatus)) pageCheck).2.alerts
      = ["Network error or server not running."] ∧
    (scanClick intHost (fun _ => .response true (some numericStatus)) pageCheck).1.scanDisabled
      = false := by
  decide

/-! ## The prefix of an issue line -/

/-- C6, the code at the failing input: rendering the success body
`{status:"danger", issues:["phishing pattern","suspicious redirect"]}` leaves
two `div.issue` lines in the given order, but each starts with the source's
literal, the four code points U+00E2 U+20AC U+00A2 U+0020 (the bytes of the
bullet read in a one-byte encoding), and not with the bullet glyph U+2022 and
a space: the list differs from the one the claim describes. -/
theorem showResult_issue_prefix_not_bullet :
    isScanResult (.obj dangerResult) = true ∧
    bulletPrefix.data.map Char.toNat = [0xE2, 0x20AC, 0xA2, 0x20] ∧
    bulletGlyph.data.map Char.toNat = [0x2022, 0x20] ∧
    (showResult intHost pageShown (.obj dangerResult)).page.issuesList
      = [⟨"div", "issue", "â€¢ phishing pattern"⟩,
         ⟨"div", "issue", "â€¢ suspicious redirect"⟩] ∧
    (showResult intHost pageShown (.obj dangerResult)).page.issuesList
      ≠ [⟨"div", "issue", bulletGlyph ++ "phishing pattern"⟩,
         ⟨"div", "issue", bulletGlyph ++ "suspicious redirect"⟩] := by
  decide

end SafelinkScan
